import Mathlib

/-!
Shallow embedding of the request handlers in `src/forum/views.py` of the
djbookru forum application, together with proofs about them.

The handlers are Django view functions.  Pure data is translated into Lean
structures; the database is an explicit `Store` value threaded through every
handler; the object-relational queries (`get_object_or_404`, `filter(...).update`,
`delete`, many-to-many membership) become list operations on the store.
Permission predicates (`has_access`, `can_post`, `can_edit`, `can_delete`) live
in the external domain model (`src/forum/models.py`, not part of the sources
under review), so they are taken as oracle parameters: each handler is proved
correct for every possible oracle.  Outcomes (`Http404`, `PermissionDenied`,
the `login_required` redirect, template responses, redirects, JSON payloads)
become an explicit `Outcome` type.
-/

set_option autoImplicit false

namespace DjForum

/-- A requesting user.  `request.user` in Django is either an authenticated
`User` (with primary key `id`) or an `AnonymousUser`; the flag
`is_authenticated` distinguishes the two, mirroring `user.is_authenticated()`
in the handlers. -/
structure User where
  id : Nat
  is_authenticated : Bool
deriving DecidableEq

/-- A forum topic row: the fields of `src.forum.models.Topic` that the view
layer touches.  `votes` is the many-to-many vote relation (the ids of the
users who voted), `rating` the derived score. -/
structure Topic where
  pk : Nat
  forum_pk : Nat
  user_pk : Nat
  views : Nat
  closed : Bool
  sticky : Bool
  heresy : Bool
  send_response : Bool
  votes : List Nat
  rating : Int
deriving DecidableEq

/-- A forum post row: the fields of `src.forum.models.Post` that the view
layer touches. -/
structure Post where
  pk : Nat
  topic_pk : Nat
  user_pk : Nat
  created : Nat
  votes : List Nat
  rating : Int
deriving DecidableEq

/-- A per-(user, topic) read marker holding the last-visited time.
This is the implicit ReadMarker entity of the read/unread tracker. -/
structure ReadMarker where
  user_pk : Nat
  topic_pk : Nat
  time : Nat
deriving DecidableEq

/-- The database state visible to the handlers: topic rows, post rows,
read markers and the set of user primary keys. -/
structure Store where
  topics : List Topic
  posts : List Post
  markers : List ReadMarker
  users : List Nat
deriving DecidableEq

/-- The permission predicates of the domain model (`Topic.has_access`,
`Topic.can_post`, `Topic.can_edit`, `Topic.can_delete`, `Post.can_delete`).
They are defined in `src/forum/models.py`, outside the sources under review,
and depend only on the entity identity and the requesting user, so they are
modelled as oracle functions from primary key and user to `Bool`. -/
structure Perms where
  topic_has_access : Nat → User → Bool
  topic_can_post : Nat → User → Bool
  topic_can_edit : Nat → User → Bool
  topic_can_delete : Nat → User → Bool
  post_can_delete : Nat → User → Bool

/-- The observable outcome of a handler: `notFound` models `Http404`,
`forbidden` models `PermissionDenied`, `loginRedirect` models the redirect
inserted by the `login_required` decorator for anonymous users, `serverError`
models an exception escaping the handler, and `ok` carries the response
payload (rendered page context, redirect target or JSON body). -/
inductive Outcome (α : Type) where
  | notFound
  | forbidden
  | loginRedirect
  | serverError
  | ok (val : α)
deriving DecidableEq

/-- A redirect target, as produced by `redirect(...)` in the handlers. -/
inductive Redirect where
  | toTopic (pk : Nat)
  | toForum (pk : Nat)
  | toPost (pk : Nat)
  | toIndex
deriving DecidableEq

/-- The HTTP request method, used by `delete_topic` via `request.method`. -/
inductive Method where
  | GET
  | POST
deriving DecidableEq

/-- `get_object_or_404(Topic, pk=pk)`: the first topic row with the given
primary key, if any. -/
def getTopic (s : Store) (pk : Nat) : Option Topic :=
  s.topics.find? fun t => t.pk == pk

/-- `get_object_or_404(Post, pk=pk)`: the first post row with the given
primary key, if any. -/
def getPost (s : Store) (pk : Nat) : Option Post :=
  s.posts.find? fun p => p.pk == pk

/-- Apply an update function to every topic row with the given primary key
(the effect of saving a modified topic, or of a queryset `update`). -/
def updateTopic (s : Store) (pk : Nat) (f : Topic → Topic) : Store :=
  { s with topics := s.topics.map fun t => if t.pk == pk then f t else t }

/-- `topic.delete()`: remove the topic row; its posts cascade away with it. -/
def removeTopic (s : Store) (pk : Nat) : Store :=
  { s with
    topics := s.topics.filter fun t => !(t.pk == pk)
    posts := s.posts.filter fun p => !(p.topic_pk == pk) }

/-- `post.delete()`: remove the post row. -/
def removePost (s : Store) (pk : Nat) : Store :=
  { s with posts := s.posts.filter fun p => !(p.pk == pk) }

/-- The read marker of a (user, topic) pair, if any, as a last-visited time. -/
def findMarker (s : Store) (upk tpk : Nat) : Option Nat :=
  (s.markers.find? fun m => m.user_pk == upk && m.topic_pk == tpk).map
    fun m => m.time

/-- Modelled from the spec: `Topic.mark_visited_for(user)` lives in
`src/forum/models.py`, outside the sources under review.  Per the spec it is
called once per topic view and upserts the ReadMarker for (user, topic) to
the current time. -/
def mark_visited_for (s : Store) (upk tpk tnow : Nat) : Store :=
  { s with
    markers := ⟨upk, tpk, tnow⟩ ::
      s.markers.filter fun m => !(m.user_pk == upk && m.topic_pk == tpk) }

/- ### The vote handler -/

/-- A votable entity as seen by the `vote` handler, which is generic over the
model class (`Topic` or `Post`): the fields it touches are the primary key,
the many-to-many vote relation and the derived rating. -/
structure Votable where
  pk : Nat
  votes : List Nat
  rating : Int
deriving DecidableEq

/-- Modelled from the spec: `update_rating` lives on the model classes in
`src/forum/models.py`, outside the sources under review.  Per the spec it
recomputes `rating` synchronously as a pure function of the current vote
membership set; the concrete policy used here is the membership count. -/
def update_rating (v : Votable) : Votable :=
  { v with rating := (v.votes.length : Int) }

/-- The membership toggle inside `vote` (views.py lines 321-326):
`obj.votes.filter(pk=user.pk).exists()` then `remove` or `add`.  Returns the
new membership list together with the `voted` flag the handler reports. -/
def toggleVotes (uid : Nat) (votes : List Nat) : List Nat × Bool :=
  if uid ∈ votes then (votes.erase uid, false) else (uid :: votes, true)

/-- Shallow embedding of `vote` (views.py lines 311-333).  The handler is
generic over the votable model; `A` is the `has_access` oracle of that model.
It resolves the entity (404 on failure), then rejects anonymous users and
users without view access with `PermissionDenied`, then toggles the vote
membership of the acting user, recomputes the rating, and returns a JSON
payload holding exactly the new rating and the new voted flag. -/
def vote (A : Nat → User → Bool) (objs : List Votable) (u : User) (pk : Nat) :
    Outcome (Int × Bool) × List Votable :=
  match objs.find? (fun o => o.pk == pk) with
  | none => (.notFound, objs)
  | some obj =>
    if !u.is_authenticated then (.forbidden, objs)
    else if !(A pk u) then (.forbidden, objs)
    else
      let res := toggleVotes u.id obj.votes
      let obj' := update_rating { obj with votes := res.1 }
      (.ok (obj'.rating, res.2), objs.map fun o => if o.pk == pk then obj' else o)

/- ### The topic page -/

/-- The response context of the topic page that the claims observe: whether a
post form is included, and the forum and topic being rendered. -/
structure TopicPageCtx where
  form_shown : Bool
  forum_pk : Nat
  topic_pk : Nat
deriving DecidableEq

/-- Shallow embedding of `topic_page` (views.py lines 60-84).  It resolves
the topic (404 on failure), hides inaccessible topics behind 404, then
atomically increments the view counter via a queryset update, builds a post
form when `can_post` holds, and upserts the read marker of the requesting
user (`tnow` is the current time).  There is no `login_required` wrapper:
anonymous users reach the handler. -/
def topic_page (P : Perms) (s : Store) (u : User) (pk tnow : Nat) :
    Outcome TopicPageCtx × Store :=
  match getTopic s pk with
  | none => (.notFound, s)
  | some topic =>
    if !(P.topic_has_access pk u) then (.notFound, s)
    else
      let s1 := updateTopic s pk fun t => { t with views := t.views + 1 }
      let s2 := mark_visited_for s1 u.id pk tnow
      (.ok ⟨P.topic_can_post pk u, topic.forum_pk, pk⟩, s2)

/- ### Adding a post -/

/-- The `add_post` response observed by the claims: a redirect to the created
post on a valid submission, or the rendered form page. -/
inductive AddPostResult where
  | created (post_pk : Nat)
  | formPage
deriving DecidableEq

/-- Shallow embedding of `add_post` (views.py lines 178-195).  The
`login_required` decorator redirects anonymous users to the login flow; the
handler then resolves the topic (404 on failure), hides inaccessible topics
behind 404, and delegates to `AddPostForm` (external): `formValid` is the
form validation verdict and `newPost` the post a valid form saves. -/
def add_post (P : Perms) (formValid : Bool) (newPost : Post) (s : Store)
    (u : User) (pk : Nat) : Outcome AddPostResult × Store :=
  if !u.is_authenticated then (.loginRedirect, s)
  else
    match getTopic s pk with
    | none => (.notFound, s)
    | some _topic =>
      if !(P.topic_has_access pk u) then (.notFound, s)
      else if formValid then
        (.ok (.created newPost.pk), { s with posts := s.posts ++ [newPost] })
      else (.ok .formPage, s)

/- ### Moderation toggles -/

/-- Modelled from the spec: `Topic.mark_heresy` / `Topic.unmark_heresy` live
in `src/forum/models.py`, outside the sources under review.  Per the spec
each sets exactly the heresy flag and persists, with no side effect on the
other flags. -/
def mark_heresy (s : Store) (pk : Nat) : Store :=
  updateTopic s pk fun t => { t with heresy := true }

/-- Modelled from the spec: clears exactly the heresy flag; see
`mark_heresy`. -/
def unmark_heresy (s : Store) (pk : Nat) : Store :=
  updateTopic s pk fun t => { t with heresy := false }

/-- Modelled from the spec: `Topic.close` sets exactly the closed flag. -/
def close_topic (s : Store) (pk : Nat) : Store :=
  updateTopic s pk fun t => { t with closed := true }

/-- Modelled from the spec: `Topic.open` clears exactly the closed flag. -/
def open_topic (s : Store) (pk : Nat) : Store :=
  updateTopic s pk fun t => { t with closed := false }

/-- Modelled from the spec: `Topic.stick` sets exactly the sticky flag. -/
def stick_topic (s : Store) (pk : Nat) : Store :=
  updateTopic s pk fun t => { t with sticky := true }

/-- Modelled from the spec: `Topic.unstick` clears exactly the sticky flag. -/
def unstick_topic (s : Store) (pk : Nat) : Store :=
  updateTopic s pk fun t => { t with sticky := false }

/-- Shallow embedding of `heresy_unheresy_topic` (views.py lines 238-250):
`login_required`, resolve the topic (404), hard `PermissionDenied` without
`can_edit`, then toggle the heresy flag and redirect to the topic. -/
def heresy_unheresy_topic (P : Perms) (s : Store) (u : User) (pk : Nat) :
    Outcome Redirect × Store :=
  if !u.is_authenticated then (.loginRedirect, s)
  else
    match getTopic s pk with
    | none => (.notFound, s)
    | some topic =>
      if !(P.topic_can_edit pk u) then (.forbidden, s)
      else if topic.heresy then (.ok (.toTopic pk), unmark_heresy s pk)
      else (.ok (.toTopic pk), mark_heresy s pk)

/-- Shallow embedding of `close_open_topic` (views.py lines 253-265): same
shape as `heresy_unheresy_topic`, toggling the closed flag. -/
def close_open_topic (P : Perms) (s : Store) (u : User) (pk : Nat) :
    Outcome Redirect × Store :=
  if !u.is_authenticated then (.loginRedirect, s)
  else
    match getTopic s pk with
    | none => (.notFound, s)
    | some topic =>
      if !(P.topic_can_edit pk u) then (.forbidden, s)
      else if topic.closed then (.ok (.toTopic pk), open_topic s pk)
      else (.ok (.toTopic pk), close_topic s pk)

/-- Shallow embedding of `stick_unstick_topic` (views.py lines 268-280):
same shape as `heresy_unheresy_topic`, toggling the sticky flag. -/
def stick_unstick_topic (P : Perms) (s : Store) (u : User) (pk : Nat) :
    Outcome Redirect × Store :=
  if !u.is_authenticated then (.loginRedirect, s)
  else
    match getTopic s pk with
    | none => (.notFound, s)
    | some topic =>
      if !(P.topic_can_edit pk u) then (.forbidden, s)
      else if topic.sticky then (.ok (.toTopic pk), unstick_topic s pk)
      else (.ok (.toTopic pk), stick_topic s pk)

/- ### Deleting topics and posts -/

/-- Shallow embedding of `delete_topic` (views.py lines 283-293):
`login_required`, resolve the topic (404), hard `PermissionDenied` without
`can_delete`; the topic is deleted only when the request method is POST, and
the handler redirects to the owning forum in either case. -/
def delete_topic (P : Perms) (s : Store) (u : User) (pk : Nat) (m : Method) :
    Outcome Redirect × Store :=
  if !u.is_authenticated then (.loginRedirect, s)
  else
    match getTopic s pk with
    | none => (.notFound, s)
    | some topic =>
      if !(P.topic_can_delete pk u) then (.forbidden, s)
      else if m = Method.POST then
        (.ok (.toForum topic.forum_pk), removeTopic s pk)
      else (.ok (.toForum topic.forum_pk), s)

/-- Shallow embedding of `delete_post` (views.py lines 296-308):
`login_required`, resolve the post (404), hard `PermissionDenied` without
`can_delete`, delete the post, then redirect to the owning topic when
`Topic.objects.get(pk=post.topic_id)` still finds it.  When the topic row is
gone, the `except Topic.DoesNotExist` branch evaluates `post.topic.forum`;
`post.topic` is a lazy foreign-key load that queries the Topic table afresh
(the relation was never cached on this instance), so it raises
`Topic.DoesNotExist` inside the except-handler and the exception escapes the
view as a server error. -/
def delete_post (P : Perms) (s : Store) (u : User) (pk : Nat) :
    Outcome Redirect × Store :=
  if !u.is_authenticated then (.loginRedirect, s)
  else
    match getPost s pk with
    | none => (.notFound, s)
    | some post =>
      if !(P.post_can_delete pk u) then (.forbidden, s)
      else
        let s1 := removePost s pk
        match getTopic s1 post.topic_pk with
        | some topic => (.ok (.toTopic topic.pk), s1)
        | none => (.serverError, s1)

/- ### The unread tracker -/

/-- The time of the last post of a topic (0 when the topic has no posts),
used to decide staleness of a read marker. -/
def last_post_time (s : Store) (tpk : Nat) : Nat :=
  (s.posts.filter fun p => p.topic_pk == tpk).foldr
    (fun p acc => max p.created acc) 0

/-- Modelled from the spec: the unread predicate shared by
`Topic.objects.unread` and `Topic.objects.unread_count`
(`src/forum/models.py`, outside the sources under review).  A topic is
unread for a user iff the user can access it and either no read marker
exists or the marker predates the last post of the topic. -/
def is_unread (A : Nat → User → Bool) (s : Store) (u : User) (t : Topic) :
    Bool :=
  A t.pk u &&
    match findMarker s u.id t.pk with
    | none => true
    | some time => decide (time < last_post_time s t.pk)

/-- Modelled from the spec: `Topic.objects.unread(user)` yields the
access-filtered topics with no marker or a stale marker, as a fresh query. -/
def unread (A : Nat → User → Bool) (s : Store) (u : User) : List Topic :=
  s.topics.filter (is_unread A s u)

/-- Modelled from the spec: `Topic.objects.unread_count(user)` is a
dedicated counting query over the same predicate as `unread`. -/
def unread_count (A : Nat → User → Bool) (s : Store) (u : User) : Nat :=
  s.topics.countP (is_unread A s u)

/-- Shallow embedding of `UnreadView` (views.py lines 87-101) behind its
`login_required` wrapper: the listed queryset comes from `unread` and the
paginator total is patched to `unread_count`. -/
def unread_view (A : Nat → User → Bool) (s : Store) (u : User) :
    Outcome (List Topic × Nat) :=
  if !u.is_authenticated then .loginRedirect
  else .ok (unread A s u, unread_count A s u)

/- ### Statistics -/

/-- Insert a post into a list sorted by ascending creation time (the order
produced by `order_by('created')`). -/
def insertByCreated (p : Post) : List Post → List Post
  | [] => [p]
  | q :: l => if p.created ≤ q.created then p :: q :: l else q :: insertByCreated p l

/-- `Post.objects.order_by('created')`: the post rows sorted by ascending
creation time. -/
def sortPostsByCreated (l : List Post) : List Post :=
  l.foldr insertByCreated []

/-- Insert a topic into a list sorted by descending view counter (the order
produced by `order_by('-views')`). -/
def insertByViewsDesc (t : Topic) : List Topic → List Topic
  | [] => [t]
  | q :: l => if t.views ≥ q.views then t :: q :: l else q :: insertByViewsDesc t l

/-- `Topic.objects.order_by('-views')`. -/
def sortTopicsByViewsDesc (l : List Topic) : List Topic :=
  l.foldr insertByViewsDesc []

/-- Insert a user key into a list sorted by a descending score (the order
produced by `annotate(Count(...)).order_by('-...count')`). -/
def insertByScoreDesc (score : Nat → Nat) (u : Nat) : List Nat → List Nat
  | [] => [u]
  | q :: l => if score u ≥ score q then u :: q :: l else q :: insertByScoreDesc score u l

/-- Sort user keys by a descending score. -/
def sortByScoreDesc (score : Nat → Nat) (l : List Nat) : List Nat :=
  l.foldr (insertByScoreDesc score) []

/-- The number of forum posts of a user. -/
def postCount (s : Store) (upk : Nat) : Nat :=
  s.posts.countP fun p => p.user_pk == upk

/-- The number of forum topics of a user. -/
def topicCount (s : Store) (upk : Nat) : Nat :=
  s.topics.countP fun t => t.user_pk == upk

/-- The aggregate report assembled by the `statistic` view. -/
structure StatReport where
  active_users_count : Nat
  topics_count : Nat
  posts_count : Nat
  first_post_created : Nat
  views_count : Option Nat
  most_viewed_topics : List Topic
  most_active_users : List Nat
  most_topics_users : List Nat
deriving DecidableEq

/-- Shallow embedding of `statistic` (views.py lines 336-352).  All the
aggregates are total except `Post.objects.order_by('created')[0].created`,
which indexes the first element of the sorted post list and raises
`IndexError` when no posts exist; that failure is modelled by
`Except.error ()`.  `views_count` is `aggregate(Sum('views'))`, which is
`None` over an empty topic table. -/
def statistic (s : Store) : Except Unit StatReport :=
  match sortPostsByCreated s.posts with
  | [] => .error ()
  | p :: _ =>
    .ok
      { active_users_count :=
          (s.users.filter fun upk => s.posts.any fun q => q.user_pk == upk).length
        topics_count := s.topics.length
        posts_count := s.posts.length
        first_post_created := p.created
        views_count :=
          if s.topics.isEmpty then none
          else some (s.topics.foldr (fun t acc => t.views + acc) 0)
        most_viewed_topics := (sortTopicsByViewsDesc s.topics).take 10
        most_active_users := (sortByScoreDesc (postCount s) s.users).take 10
        most_topics_users := (sortByScoreDesc (topicCount s) s.users).take 10 }

/- ### The handler table -/

/-- The handlers defined in views.py, in source order. -/
inductive Handler where
  | index
  | forum_page
  | topic_page
  | unread_topics
  | mark_read_all
  | mark_read_forum
  | my_topics
  | add_topic
  | move_topic
  | add_post
  | edit_post
  | subscribe
  | unsubscribe
  | heresy_unheresy_topic
  | close_open_topic
  | stick_unstick_topic
  | delete_topic
  | delete_post
  | vote
  | statistic
  | posts_per_month_chart
deriving DecidableEq

/-- Whether the handler is guarded by a `login_required` wrapper in
views.py (a decorator on the function, or the wrapper around the class-based
views `unread_topics` and `my_topics`). -/
def requiresLogin : Handler → Bool
  | .index => false
  | .forum_page => false
  | .topic_page => false
  | .unread_topics => true
  | .mark_read_all => true
  | .mark_read_forum => true
  | .my_topics => true
  | .add_topic => true
  | .move_topic => true
  | .add_post => true
  | .edit_post => true
  | .subscribe => true
  | .unsubscribe => true
  | .heresy_unheresy_topic => true
  | .close_open_topic => true
  | .stick_unstick_topic => true
  | .delete_topic => true
  | .delete_post => true
  | .vote => false
  | .statistic => false
  | .posts_per_month_chart => false

/-- Whether the handler can mutate persistent state on some request, per its
body in views.py: `topic_page` increments the view counter and upserts a
read marker; the mark-read, form-saving, subscription, moderation, delete
and vote handlers write; the index, listing, statistics and chart handlers
only read. -/
def mutatesState : Handler → Bool
  | .index => false
  | .forum_page => false
  | .topic_page => true
  | .unread_topics => false
  | .mark_read_all => true
  | .mark_read_forum => true
  | .my_topics => false
  | .add_topic => true
  | .move_topic => true
  | .add_post => true
  | .edit_post => true
  | .subscribe => true
  | .unsubscribe => true
  | .heresy_unheresy_topic => true
  | .close_open_topic => true
  | .stick_unstick_topic => true
  | .delete_topic => true
  | .delete_post => true
  | .vote => true
  | .statistic => false
  | .posts_per_month_chart => false

/- ### Concrete fixtures used by witnesses and counterexamples -/

/-- A permission oracle granting everything. -/
def permsAllTrue : Perms :=
  ⟨fun _ _ => true, fun _ _ => true, fun _ _ => true, fun _ _ => true,
    fun _ _ => true⟩

/-- A permission oracle denying everything. -/
def permsAllFalse : Perms :=
  ⟨fun _ _ => false, fun _ _ => false, fun _ _ => false, fun _ _ => false,
    fun _ _ => false⟩

/-- A sample topic: pk 1 in forum 2 by user 7, five views, all flags clear. -/
def sampleTopic : Topic := ⟨1, 2, 7, 5, false, false, false, false, [], 0⟩

/-- A sample post: pk 1 in topic 1 by user 7, created at time 10. -/
def samplePost : Post := ⟨1, 1, 7, 10, [], 0⟩

/-- A sample store holding just the sample topic, its post and user 7. -/
def sampleStore : Store := ⟨[sampleTopic], [samplePost], [], [7]⟩

/- ### Helper lemmas about keyed list lookups -/

section FindLemmas

variable {α : Type}

theorem find?_map_update_self (p : α → Bool) (f : α → α)
    (hp : ∀ a, p a = true → p (f a) = true) (l : List α) :
    (l.map fun a => if p a then f a else a).find? p = (l.find? p).map f := by
  induction l with
  | nil => rfl
  | cons a l ih =>
    rw [List.map_cons]
    cases hb : p a with
    | true =>
      rw [if_pos rfl, List.find?_cons_of_pos _ (hp a hb),
        List.find?_cons_of_pos _ hb]
      rfl
    | false =>
      rw [if_neg (by simp), List.find?_cons_of_neg _ (by simp [hb]),
        List.find?_cons_of_neg _ (by simp [hb])]
      exact ih

theorem find?_map_update_of_ne (p q : α → Bool) (f : α → α)
    (h1 : ∀ a, p a = true → q a = false)
    (h2 : ∀ a, p a = true → q (f a) = false) (l : List α) :
    (l.map fun a => if p a then f a else a).find? q = l.find? q := by
  induction l with
  | nil => rfl
  | cons a l ih =>
    rw [List.map_cons]
    cases hb : p a with
    | true =>
      rw [if_pos rfl, List.find?_cons_of_neg _ (by simp [h2 a hb]),
        List.find?_cons_of_neg _ (by simp [h1 a hb])]
      exact ih
    | false =>
      rw [if_neg (by simp)]
      cases hb2 : q a with
      | true =>
        rw [List.find?_cons_of_pos _ hb2, List.find?_cons_of_pos _ hb2]
      | false =>
        rw [List.find?_cons_of_neg _ (by simp [hb2]),
          List.find?_cons_of_neg _ (by simp [hb2])]
        exact ih

theorem find?_filter_superset (p q : α → Bool) (l : List α)
    (h : ∀ a, p a = true → q a = true) :
    (l.filter q).find? p = l.find? p := by
  induction l with
  | nil => rfl
  | cons a l ih =>
    cases hq : q a with
    | true =>
      cases hp : p a with
      | true => simp [List.filter_cons, hq, List.find?_cons, hp]
      | false => simp [List.filter_cons, hq, List.find?_cons, hp, ih]
    | false =>
      have hp : p a = false := by
        cases hpa : p a with
        | false => rfl
        | true => exact absurd (h a hpa) (by simp [hq])
      simp [List.filter_cons, hq, List.find?_cons, hp, ih]

theorem find?_filter_not (p : α → Bool) (l : List α) :
    (l.filter fun a => !(p a)).find? p = none := by
  induction l with
  | nil => rfl
  | cons a l ih =>
    cases hp : p a with
    | true => simp [List.filter_cons, hp, ih]
    | false => simp [List.filter_cons, hp, List.find?_cons, ih]

end FindLemmas

/- ### Helper lemmas about the store operations -/

theorem getTopic_updateTopic_self (s : Store) (pk : Nat) (f : Topic → Topic)
    (hk : ∀ t : Topic, t.pk = pk → (f t).pk = pk) :
    getTopic (updateTopic s pk f) pk = (getTopic s pk).map f := by
  unfold getTopic updateTopic
  exact find?_map_update_self (fun t => t.pk == pk) f
    (fun t ht => by
      have : t.pk = pk := by simpa using ht
      simpa using hk t this)
    s.topics

theorem getTopic_updateTopic_ne (s : Store) (pk pk2 : Nat) (f : Topic → Topic)
    (hk : ∀ t : Topic, t.pk = pk → (f t).pk = pk) (hne : pk2 ≠ pk) :
    getTopic (updateTopic s pk f) pk2 = getTopic s pk2 := by
  unfold getTopic updateTopic
  exact find?_map_update_of_ne (fun t => t.pk == pk) (fun t => t.pk == pk2) f
    (fun t ht => by
      have h : t.pk = pk := by simpa using ht
      show (t.pk == pk2) = false
      rw [h]
      simpa using fun hh => hne hh.symm)
    (fun t ht => by
      have h : t.pk = pk := by simpa using ht
      show ((f t).pk == pk2) = false
      rw [hk t h]
      simpa using fun hh => hne hh.symm)
    s.topics

theorem getTopic_removeTopic_self (s : Store) (pk : Nat) :
    getTopic (removeTopic s pk) pk = none := by
  unfold getTopic removeTopic
  exact find?_filter_not (fun t => t.pk == pk) s.topics

theorem findMarker_mark_visited_self (s : Store) (upk tpk tnow : Nat) :
    findMarker (mark_visited_for s upk tpk tnow) upk tpk = some tnow := by
  simp [findMarker, mark_visited_for, List.find?_cons]

theorem findMarker_mark_visited_ne (s : Store) (upk tpk tnow upk2 tpk2 : Nat)
    (h : ¬(upk2 = upk ∧ tpk2 = tpk)) :
    findMarker (mark_visited_for s upk tpk tnow) upk2 tpk2
      = findMarker s upk2 tpk2 := by
  have hhead : ((upk == upk2) && (tpk == tpk2)) = false := by
    by_contra hc
    have hb : ((upk == upk2) && (tpk == tpk2)) = true := by
      cases hx : ((upk == upk2) && (tpk == tpk2)) <;> simp_all
    have hb2 : upk = upk2 ∧ tpk = tpk2 := by simpa using hb
    exact h ⟨hb2.1.symm, hb2.2.symm⟩
  have hfilter :
      ((s.markers.filter fun m => !(m.user_pk == upk && m.topic_pk == tpk)).find?
          fun m => m.user_pk == upk2 && m.topic_pk == tpk2)
        = s.markers.find? fun m => m.user_pk == upk2 && m.topic_pk == tpk2 := by
    apply find?_filter_superset
    intro m hm
    have hm2 : m.user_pk = upk2 ∧ m.topic_pk = tpk2 := by simpa using hm
    have hnot : ¬(m.user_pk = upk ∧ m.topic_pk = tpk) := by
      rintro ⟨ha, hb2⟩
      exact h ⟨by rw [← hm2.1, ha], by rw [← hm2.2, hb2]⟩
    rcases Decidable.em (m.user_pk = upk) with h1 | h1
    · have h2 : m.topic_pk ≠ tpk := fun hh => hnot ⟨h1, hh⟩
      simp [h2]
    · simp [h1]
  unfold findMarker mark_visited_for
  simp only [List.find?_cons, hhead]
  rw [hfilter]

/- ### Helper lemmas about the vote handler -/

theorem vote_eq_of_found (A : Nat → User → Bool) (objs : List Votable)
    (u : User) (pk : Nat) (obj : Votable)
    (hfind : objs.find? (fun o => o.pk == pk) = some obj)
    (hauth : u.is_authenticated = true) (hacc : A pk u = true) :
    vote A objs u pk =
      (.ok (((toggleVotes u.id obj.votes).1.length : Int),
            (toggleVotes u.id obj.votes).2),
       objs.map fun o =>
         if o.pk == pk then
           update_rating { obj with votes := (toggleVotes u.id obj.votes).1 }
         else o) := by
  unfold vote
  rw [hfind]
  simp [hauth, hacc, update_rating]

theorem find?_replace_found (objs : List Votable) (pk : Nat) (obj obj2 : Votable)
    (hfind : objs.find? (fun o => o.pk == pk) = some obj)
    (hpk : obj2.pk = pk) :
    (objs.map fun o => if o.pk == pk then obj2 else o).find?
        (fun o => o.pk == pk) = some obj2 := by
  have hmap := find?_map_update_self (fun o => o.pk == pk) (fun _ => obj2)
    (fun _ _ => by simpa using hpk) objs
  rw [hmap, hfind]
  rfl

/-- After a successful vote, looking the entity up again yields the updated
row reported by `vote_eq_of_found`. -/
theorem vote_store_find (A : Nat → User → Bool) (objs : List Votable)
    (u : User) (pk : Nat) (obj : Votable)
    (hfind : objs.find? (fun o => o.pk == pk) = some obj)
    (hauth : u.is_authenticated = true) (hacc : A pk u = true) :
    (vote A objs u pk).2.find? (fun o => o.pk == pk)
      = some (update_rating { obj with votes := (toggleVotes u.id obj.votes).1 }) := by
  have hpk : obj.pk = pk := by simpa using List.find?_some hfind
  rw [vote_eq_of_found A objs u pk obj hfind hauth hacc]
  exact find?_replace_found objs pk obj _ hfind hpk

/- ### Claim theorems -/

/-- Claim C2 (amended): for an authenticated user with access, voting twice
in succession restores the membership set and the rating of the entity to
their values before the first call; the second call reports as its voted
flag the pre-existing voted state of the user, which is `false` exactly when
the user had not voted before the first call. -/
theorem vote_double_toggle (A : Nat → User → Bool) (objs : List Votable)
    (u : User) (pk : Nat) (obj : Votable)
    (hfind : objs.find? (fun o => o.pk == pk) = some obj)
    (hauth : u.is_authenticated = true) (hacc : A pk u = true)
    (hnd : obj.votes.Nodup) (hrat : obj.rating = (obj.votes.length : Int)) :
    (vote A (vote A objs u pk).2 u pk).1
        = Outcome.ok (obj.rating, decide (u.id ∈ obj.votes)) ∧
    ∃ obj2,
      (vote A (vote A objs u pk).2 u pk).2.find? (fun o => o.pk == pk)
          = some obj2 ∧
      (∀ x, x ∈ obj2.votes ↔ x ∈ obj.votes) ∧
      obj2.rating = obj.rating := by
  have hpk : obj.pk = pk := by simpa using List.find?_some hfind
  have hfind1 := vote_store_find A objs u pk obj hfind hauth hacc
  have h2 := vote_eq_of_found A (vote A objs u pk).2 u pk _ hfind1 hauth hacc
  have hfind2 := vote_store_find A (vote A objs u pk).2 u pk _ hfind1 hauth hacc
  by_cases hmem : u.id ∈ obj.votes
  · have he1 : toggleVotes u.id obj.votes = (obj.votes.erase u.id, false) := by
      simp [toggleVotes, hmem]
    have hne1 : u.id ∉ obj.votes.erase u.id :=
      fun hx => ((hnd.mem_erase_iff).mp hx).1 rfl
    have he2 :
        toggleVotes u.id (obj.votes.erase u.id)
          = (u.id :: obj.votes.erase u.id, true) := by
      simp [toggleVotes, hne1]
    have hlen : (u.id :: obj.votes.erase u.id).length = obj.votes.length := by
      have h0 : 0 < obj.votes.length := List.length_pos_of_mem hmem
      have he := obj.votes.length_erase_of_mem hmem
      simp only [List.length_cons, he]
      omega
    refine ⟨?_, ?_⟩
    · rw [h2]
      simp only [update_rating, he1, he2]
      simp only [Outcome.ok.injEq, Prod.mk.injEq]
      refine ⟨?_, by simp [hmem]⟩
      rw [hrat]
      exact_mod_cast hlen
    · refine ⟨_, hfind2, ?_, ?_⟩
      · intro x
        simp only [update_rating, he1, he2, List.mem_cons]
        constructor
        · rintro (rfl | hx)
          · exact hmem
          · exact ((hnd.mem_erase_iff).mp hx).2
        · intro hx
          by_cases hxe : x = u.id
          · exact Or.inl hxe
          · exact Or.inr ((hnd.mem_erase_iff).mpr ⟨hxe, hx⟩)
      · simp only [update_rating, he1, he2]
        rw [hrat]
        exact_mod_cast hlen
  · have he1 : toggleVotes u.id obj.votes = (u.id :: obj.votes, true) := by
      simp [toggleVotes, hmem]
    have he2 :
        toggleVotes u.id (u.id :: obj.votes) = (obj.votes, false) := by
      simp [toggleVotes, List.erase_cons_head]
    refine ⟨?_, ?_⟩
    · rw [h2]
      simp only [update_rating, he1, he2]
      simp [hrat, hmem]
    · refine ⟨_, hfind2, ?_, ?_⟩
      · intro x
        simp [update_rating, he1, he2]
      · simp only [update_rating, he1, he2]
        exact hrat.symm

/-- Witness for C2 at a concrete input: user 7 (not having voted yet) on
entity 1 with an empty vote set; the double toggle reports rating 0 and
voted false, and the stored entity is unchanged in membership and rating. -/
theorem vote_double_toggle_witness :
    (vote (fun _ _ => true)
        (vote (fun _ _ => true) [⟨1, [], 0⟩] ⟨7, true⟩ 1).2 ⟨7, true⟩ 1).1
        = Outcome.ok ((0 : Int), decide ((7 : Nat) ∈ ([] : List Nat))) ∧
    ∃ obj2,
      (vote (fun _ _ => true)
          (vote (fun _ _ => true) [⟨1, [], 0⟩] ⟨7, true⟩ 1).2 ⟨7, true⟩ 1).2.find?
          (fun o => o.pk == 1) = some obj2 ∧
      (∀ x, x ∈ obj2.votes ↔ x ∈ (⟨1, [], 0⟩ : Votable).votes) ∧
      obj2.rating = (⟨1, [], 0⟩ : Votable).rating :=
  vote_double_toggle (fun _ _ => true) [⟨1, [], 0⟩] ⟨7, true⟩ 1 ⟨1, [], 0⟩
    rfl rfl rfl List.nodup_nil rfl

/-- Counterexample to C2 as stated: user 7 has already voted on entity 1
(votes = [7], rating 1); the first call removes the vote, the second call
adds it back, so the second call reports voted = true, not voted = false as
the claim requires (the rating does return to 1). -/
theorem vote_double_toggle_counterexample :
    (vote (fun _ _ => true)
        (vote (fun _ _ => true) [⟨1, [7], 1⟩] ⟨7, true⟩ 1).2 ⟨7, true⟩ 1).1
        = Outcome.ok ((1 : Int), true) ∧
    (vote (fun _ _ => true)
        (vote (fun _ _ => true) [⟨1, [7], 1⟩] ⟨7, true⟩ 1).2 ⟨7, true⟩ 1).1
        ≠ Outcome.ok ((1 : Int), false) := by
  constructor
  · rfl
  · decide

/-- Claim C3: for an existing votable entity, the vote operation returns
Forbidden when the requesting user is anonymous, and Forbidden when the user
is authenticated but lacks view access, leaving the store unchanged in both
cases; otherwise it toggles exactly the acting user's membership in the vote
set, recomputes the rating as a pure function of the new membership, and the
response payload is exactly the pair of the new rating and the new
voted-state of the acting user (the return type carries nothing else). -/
theorem vote_authorization_and_result (A : Nat → User → Bool)
    (objs : List Votable) (u : User) (pk : Nat) (obj : Votable)
    (hfind : objs.find? (fun o => o.pk == pk) = some obj)
    (hnd : obj.votes.Nodup) :
    (u.is_authenticated = false → vote A objs u pk = (.forbidden, objs)) ∧
    (u.is_authenticated = true → A pk u = false →
        vote A objs u pk = (.forbidden, objs)) ∧
    (u.is_authenticated = true → A pk u = true →
      ∃ obj2,
        (vote A objs u pk).2.find? (fun o => o.pk == pk) = some obj2 ∧
        ((u.id ∈ obj2.votes) ↔ ¬(u.id ∈ obj.votes)) ∧
        (∀ x, x ≠ u.id → ((x ∈ obj2.votes) ↔ x ∈ obj.votes)) ∧
        obj2.rating = (obj2.votes.length : Int) ∧
        (vote A objs u pk).1
            = .ok (obj2.rating, decide (u.id ∈ obj2.votes))) := by
  refine ⟨?_, ?_, ?_⟩
  · intro hanon
    unfold vote
    rw [hfind]
    simp [hanon]
  · intro hauth hacc
    unfold vote
    rw [hfind]
    simp [hauth, hacc]
  · intro hauth hacc
    refine ⟨_, vote_store_find A objs u pk obj hfind hauth hacc, ?_, ?_, ?_, ?_⟩
    · by_cases hmem : u.id ∈ obj.votes
      · have he1 : toggleVotes u.id obj.votes = (obj.votes.erase u.id, false) := by
          simp [toggleVotes, hmem]
        simp only [update_rating, he1]
        constructor
        · intro hx
          exact absurd rfl ((hnd.mem_erase_iff).mp hx).1
        · intro hx
          exact absurd hmem hx
      · have he1 : toggleVotes u.id obj.votes = (u.id :: obj.votes, true) := by
          simp [toggleVotes, hmem]
        simp only [update_rating, he1]
        simp [hmem]
    · intro x hx
      by_cases hmem : u.id ∈ obj.votes
      · have he1 : toggleVotes u.id obj.votes = (obj.votes.erase u.id, false) := by
          simp [toggleVotes, hmem]
        simp only [update_rating, he1]
        constructor
        · intro hin
          exact ((hnd.mem_erase_iff).mp hin).2
        · intro hin
          exact (hnd.mem_erase_iff).mpr ⟨hx, hin⟩
      · have he1 : toggleVotes u.id obj.votes = (u.id :: obj.votes, true) := by
          simp [toggleVotes, hmem]
        simp only [update_rating, he1]
        simp [hx]
    · rfl
    · rw [vote_eq_of_found A objs u pk obj hfind hauth hacc]
      by_cases hmem : u.id ∈ obj.votes
      · have he1 : toggleVotes u.id obj.votes = (obj.votes.erase u.id, false) := by
          simp [toggleVotes, hmem]
        have hne1 : u.id ∉ obj.votes.erase u.id :=
          fun hx => ((hnd.mem_erase_iff).mp hx).1 rfl
        simp [update_rating, he1, hne1]
      · have he1 : toggleVotes u.id obj.votes = (u.id :: obj.votes, true) := by
          simp [toggleVotes, hmem]
        simp [update_rating, he1]

/-- Witness for C3 at a concrete input: authenticated user 7 without view
access to the existing entity 1 gets Forbidden and the store is unchanged. -/
theorem vote_authorization_and_result_witness :
    vote (fun _ _ => false) [⟨1, [], 0⟩] ⟨7, true⟩ 1
        = (Outcome.forbidden, [⟨1, [], 0⟩]) :=
  (vote_authorization_and_result (fun _ _ => false) [⟨1, [], 0⟩] ⟨7, true⟩ 1
    ⟨1, [], 0⟩ rfl List.nodup_nil).2.1 rfl rfl

/-- Counterexample to C1 as stated: the vote handler touches the entity and,
for authenticated user 3 for whom has_access is false, returns Forbidden —
not NotFound as the claim requires of every handler. -/
theorem notfound_on_no_access_counterexample :
    vote (fun _ _ => false) [⟨1, [], 0⟩] ⟨3, true⟩ 1
        = (Outcome.forbidden, [⟨1, [], 0⟩]) ∧
    (Outcome.forbidden : Outcome (Int × Bool)) ≠ Outcome.notFound := by
  exact ⟨rfl, by decide⟩

/-- Claim C1 (amended): when `Topic.has_access(U)` is false, the handlers
that gate on visibility — the topic page and add-post — return NotFound,
hiding the existence of the topic; the vote handler is the exception: it
returns Forbidden for an authenticated user without access (and the
moderation and delete handlers never consult has_access at all, answering
Forbidden when their own permission check fails). -/
theorem has_access_failure_outcomes (P : Perms) (A : Nat → User → Bool)
    (s : Store) (objs : List Votable) (u : User) (pk tnow : Nat) :
    (∀ topic, getTopic s pk = some topic → P.topic_has_access pk u = false →
        topic_page P s u pk tnow = (.notFound, s)) ∧
    (∀ fv np topic, getTopic s pk = some topic →
        u.is_authenticated = true → P.topic_has_access pk u = false →
        add_post P fv np s u pk = (.notFound, s)) ∧
    (∀ obj, objs.find? (fun o => o.pk == pk) = some obj →
        u.is_authenticated = true → A pk u = false →
        vote A objs u pk = (.forbidden, objs)) := by
  refine ⟨?_, ?_, ?_⟩
  · intro topic hfind hacc
    unfold topic_page
    rw [hfind]
    simp [hacc]
  · intro fv np topic hfind hauth hacc
    unfold add_post
    rw [hfind]
    simp [hauth, hacc]
  · intro obj hfind hauth hacc
    unfold vote
    rw [hfind]
    simp [hauth, hacc]

/-- Witness for C1 (amended) at a concrete input: with an all-false
permission oracle, the topic page of the sample store answers NotFound and
leaves the store unchanged. -/
theorem has_access_failure_outcomes_witness :
    topic_page permsAllFalse sampleStore ⟨7, true⟩ 1 42
      = (Outcome.notFound, sampleStore) :=
  (has_access_failure_outcomes permsAllFalse (fun _ _ => false) sampleStore []
    ⟨7, true⟩ 1 42).1 sampleTopic rfl rfl

/-- Counterexample to C10 as stated: `topic_page` is a state-changing
handler reachable by anonymous users — it has no login wrapper, is marked
mutating in the handler table, is distinct from `vote`, and concretely an
anonymous request to the sample topic changes the store (view counter and
read marker). -/
theorem anonymous_mutating_topic_page_counterexample :
    mutatesState Handler.topic_page = true ∧
    requiresLogin Handler.topic_page = false ∧
    Handler.topic_page ≠ Handler.vote ∧
    (topic_page permsAllTrue sampleStore ⟨3, false⟩ 1 42).2 ≠ sampleStore := by
  refine ⟨rfl, rfl, by decide, by decide⟩

/-- Claim C10 (amended): the vote handler resolves the entity before the
authentication check — an anonymous request naming a nonexistent id gets
NotFound, and one naming an existing entity gets Forbidden from the check
inside the handler body.  But vote is not the only state-changing handler
reachable by anonymous users: exactly `topic_page` (view counter increment
and read-marker upsert, no login wrapper) and `vote` are the mutating
handlers without a login_required wrapper. -/
theorem vote_anonymous_order_and_reachability (A : Nat → User → Bool)
    (objs : List Votable) (u : User) (pk : Nat) :
    (u.is_authenticated = false → objs.find? (fun o => o.pk == pk) = none →
        vote A objs u pk = (.notFound, objs)) ∧
    (u.is_authenticated = false → ∀ obj,
        objs.find? (fun o => o.pk == pk) = some obj →
        vote A objs u pk = (.forbidden, objs)) ∧
    (∀ h : Handler, mutatesState h = true → requiresLogin h = false →
        h = Handler.topic_page ∨ h = Handler.vote) := by
  refine ⟨?_, ?_, ?_⟩
  · intro _hanon hnone
    unfold vote
    rw [hnone]
  · intro hanon obj hsome
    unfold vote
    rw [hsome]
    simp [hanon]
  · intro h hm hl
    cases h <;> simp_all [mutatesState, requiresLogin]

/-- Witness for C10 (amended) at a concrete input: an anonymous request for
the nonexistent entity 9 answers NotFound, and the handler-table conjunct
instantiated at vote itself. -/
theorem vote_anonymous_order_and_reachability_witness :
    vote (fun _ _ => true) ([] : List Votable) ⟨3, false⟩ 9
        = (Outcome.notFound, ([] : List Votable)) ∧
    (Handler.vote = Handler.topic_page ∨ Handler.vote = Handler.vote) :=
  ⟨(vote_anonymous_order_and_reachability (fun _ _ => true) [] ⟨3, false⟩ 9).1
      rfl rfl,
   (vote_anonymous_order_and_reachability (fun _ _ => true) [] ⟨3, false⟩ 9).2.2
      Handler.vote rfl rfl⟩

/-- Success form of the heresy toggle: with an authenticated editor, the
store update sets the heresy flag of the topic to its negation. -/
theorem heresy_success_eq (P : Perms) (s : Store) (u : User) (pk : Nat)
    (topic : Topic) (hauth : u.is_authenticated = true)
    (hfind : getTopic s pk = some topic)
    (hedit : P.topic_can_edit pk u = true) :
    heresy_unheresy_topic P s u pk =
      (.ok (.toTopic pk),
       updateTopic s pk fun t => { t with heresy := !topic.heresy }) := by
  unfold heresy_unheresy_topic
  rw [hfind]
  by_cases hh : topic.heresy
  · simp [hauth, hedit, hh, unmark_heresy]
  · simp [hauth, hedit, hh, mark_heresy]

/-- Success form of the closed toggle; see `heresy_success_eq`. -/
theorem close_success_eq (P : Perms) (s : Store) (u : User) (pk : Nat)
    (topic : Topic) (hauth : u.is_authenticated = true)
    (hfind : getTopic s pk = some topic)
    (hedit : P.topic_can_edit pk u = true) :
    close_open_topic P s u pk =
      (.ok (.toTopic pk),
       updateTopic s pk fun t => { t with closed := !topic.closed }) := by
  unfold close_open_topic
  rw [hfind]
  by_cases hh : topic.closed
  · simp [hauth, hedit, hh, open_topic]
  · simp [hauth, hedit, hh, close_topic]

/-- Success form of the sticky toggle; see `heresy_success_eq`. -/
theorem stick_success_eq (P : Perms) (s : Store) (u : User) (pk : Nat)
    (topic : Topic) (hauth : u.is_authenticated = true)
    (hfind : getTopic s pk = some topic)
    (hedit : P.topic_can_edit pk u = true) :
    stick_unstick_topic P s u pk =
      (.ok (.toTopic pk),
       updateTopic s pk fun t => { t with sticky := !topic.sticky }) := by
  unfold stick_unstick_topic
  rw [hfind]
  by_cases hh : topic.sticky
  · simp [hauth, hedit, hh, unstick_topic]
  · simp [hauth, hedit, hh, stick_topic]

/-- Claim C4: each of the three moderation operations answers a hard
Forbidden (with no store change) when `can_edit` fails; on success each
flips exactly its own flag — the updated topic row equals the original with
only that flag negated, so the other two flags and every other field are
untouched — leaves every other topic unchanged, and applying the same
operation twice restores the topic row exactly. -/
theorem moderation_toggle_spec (P : Perms) (s : Store) (u : User) (pk : Nat)
    (topic : Topic) (hauth : u.is_authenticated = true)
    (hfind : getTopic s pk = some topic) :
    (P.topic_can_edit pk u = false →
        heresy_unheresy_topic P s u pk = (.forbidden, s) ∧
        close_open_topic P s u pk = (.forbidden, s) ∧
        stick_unstick_topic P s u pk = (.forbidden, s)) ∧
    (P.topic_can_edit pk u = true →
        getTopic (heresy_unheresy_topic P s u pk).2 pk
            = some { topic with heresy := !topic.heresy } ∧
        getTopic (close_open_topic P s u pk).2 pk
            = some { topic with closed := !topic.closed } ∧
        getTopic (stick_unstick_topic P s u pk).2 pk
            = some { topic with sticky := !topic.sticky } ∧
        (∀ pk2, pk2 ≠ pk →
            getTopic (heresy_unheresy_topic P s u pk).2 pk2 = getTopic s pk2 ∧
            getTopic (close_open_topic P s u pk).2 pk2 = getTopic s pk2 ∧
            getTopic (stick_unstick_topic P s u pk).2 pk2 = getTopic s pk2) ∧
        getTopic (heresy_unheresy_topic P
            (heresy_unheresy_topic P s u pk).2 u pk).2 pk = some topic ∧
        getTopic (close_open_topic P
            (close_open_topic P s u pk).2 u pk).2 pk = some topic ∧
        getTopic (stick_unstick_topic P
            (stick_unstick_topic P s u pk).2 u pk).2 pk = some topic) := by
  refine ⟨?_, ?_⟩
  · intro hedit
    refine ⟨?_, ?_, ?_⟩
    · unfold heresy_unheresy_topic
      rw [hfind]
      simp [hauth, hedit]
    · unfold close_open_topic
      rw [hfind]
      simp [hauth, hedit]
    · unfold stick_unstick_topic
      rw [hfind]
      simp [hauth, hedit]
  · intro hedit
    have hHb : (heresy_unheresy_topic P s u pk).2
        = updateTopic s pk (fun t => { t with heresy := !topic.heresy }) := by
      rw [heresy_success_eq P s u pk topic hauth hfind hedit]
    have hCb : (close_open_topic P s u pk).2
        = updateTopic s pk (fun t => { t with closed := !topic.closed }) := by
      rw [close_success_eq P s u pk topic hauth hfind hedit]
    have hSb : (stick_unstick_topic P s u pk).2
        = updateTopic s pk (fun t => { t with sticky := !topic.sticky }) := by
      rw [stick_success_eq P s u pk topic hauth hfind hedit]
    have hgH :
        getTopic (heresy_unheresy_topic P s u pk).2 pk
          = some { topic with heresy := !topic.heresy } := by
      rw [hHb, getTopic_updateTopic_self s pk
        (fun t => { t with heresy := !topic.heresy }) (fun t ht => ht), hfind]
      rfl
    have hgC :
        getTopic (close_open_topic P s u pk).2 pk
          = some { topic with closed := !topic.closed } := by
      rw [hCb, getTopic_updateTopic_self s pk
        (fun t => { t with closed := !topic.closed }) (fun t ht => ht), hfind]
      rfl
    have hgS :
        getTopic (stick_unstick_topic P s u pk).2 pk
          = some { topic with sticky := !topic.sticky } := by
      rw [hSb, getTopic_updateTopic_self s pk
        (fun t => { t with sticky := !topic.sticky }) (fun t ht => ht), hfind]
      rfl
    refine ⟨hgH, hgC, hgS, ?_, ?_, ?_, ?_⟩
    · intro pk2 hne
      refine ⟨?_, ?_, ?_⟩
      · rw [hHb]
        exact getTopic_updateTopic_ne s pk pk2
          (fun t => { t with heresy := !topic.heresy }) (fun t ht => ht) hne
      · rw [hCb]
        exact getTopic_updateTopic_ne s pk pk2
          (fun t => { t with closed := !topic.closed }) (fun t ht => ht) hne
      · rw [hSb]
        exact getTopic_updateTopic_ne s pk pk2
          (fun t => { t with sticky := !topic.sticky }) (fun t ht => ht) hne
    · have h2b : (heresy_unheresy_topic P
          (heresy_unheresy_topic P s u pk).2 u pk).2
          = updateTopic (heresy_unheresy_topic P s u pk).2 pk
              (fun t => { t with
                heresy := !({ topic with heresy := !topic.heresy } : Topic).heresy }) := by
        rw [heresy_success_eq P (heresy_unheresy_topic P s u pk).2 u pk
          { topic with heresy := !topic.heresy } hauth hgH hedit]
      rw [h2b, getTopic_updateTopic_self _ pk
        (fun t => { t with
          heresy := !({ topic with heresy := !topic.heresy } : Topic).heresy })
        (fun t ht => ht), hgH]
      cases topic
      simp
    · have h2b : (close_open_topic P
          (close_open_topic P s u pk).2 u pk).2
          = updateTopic (close_open_topic P s u pk).2 pk
              (fun t => { t with
                closed := !({ topic with closed := !topic.closed } : Topic).closed }) := by
        rw [close_success_eq P (close_open_topic P s u pk).2 u pk
          { topic with closed := !topic.closed } hauth hgC hedit]
      rw [h2b, getTopic_updateTopic_self _ pk
        (fun t => { t with
          closed := !({ topic with closed := !topic.closed } : Topic).closed })
        (fun t ht => ht), hgC]
      cases topic
      simp
    · have h2b : (stick_unstick_topic P
          (stick_unstick_topic P s u pk).2 u pk).2
          = updateTopic (stick_unstick_topic P s u pk).2 pk
              (fun t => { t with
                sticky := !({ topic with sticky := !topic.sticky } : Topic).sticky }) := by
        rw [stick_success_eq P (stick_unstick_topic P s u pk).2 u pk
          { topic with sticky := !topic.sticky } hauth hgS hedit]
      rw [h2b, getTopic_updateTopic_self _ pk
        (fun t => { t with
          sticky := !({ topic with sticky := !topic.sticky } : Topic).sticky })
        (fun t ht => ht), hgS]
      cases topic
      simp

/-- Witness for C4 at a concrete input: closing the sample topic (closed
false to true) and closing it again restores the original row. -/
theorem moderation_toggle_spec_witness :
    getTopic (close_open_topic permsAllTrue sampleStore ⟨7, true⟩ 1).2 1
        = some ⟨1, 2, 7, 5, true, false, false, false, [], 0⟩ ∧
    getTopic (close_open_topic permsAllTrue
        (close_open_topic permsAllTrue sampleStore ⟨7, true⟩ 1).2
        ⟨7, true⟩ 1).2 1 = some sampleTopic :=
  ⟨((moderation_toggle_spec permsAllTrue sampleStore ⟨7, true⟩ 1 sampleTopic
      rfl rfl).2 rfl).2.1,
   ((moderation_toggle_spec permsAllTrue sampleStore ⟨7, true⟩ 1 sampleTopic
      rfl rfl).2 rfl).2.2.2.2.2.1⟩

/-- Upserting a read marker leaves the topic table untouched. -/
theorem getTopic_mark_visited (s : Store) (upk tpk tnow pk : Nat) :
    getTopic (mark_visited_for s upk tpk tnow) pk = getTopic s pk := rfl

/-- Updating a topic leaves the read markers untouched. -/
theorem findMarker_updateTopic (s : Store) (pk : Nat) (f : Topic → Topic)
    (upk tpk : Nat) :
    findMarker (updateTopic s pk f) upk tpk = findMarker s upk tpk := rfl

/-- Success form of the topic page: with access granted, the response is the
rendered page and the store gets the view counter bump and the marker
upsert. -/
theorem topic_page_success_eq (P : Perms) (s : Store) (u : User)
    (pk tnow : Nat) (topic : Topic) (hfind : getTopic s pk = some topic)
    (hacc : P.topic_has_access pk u = true) :
    topic_page P s u pk tnow =
      (.ok ⟨P.topic_can_post pk u, topic.forum_pk, pk⟩,
       mark_visited_for
         (updateTopic s pk fun t => { t with views := t.views + 1 })
         u.id pk tnow) := by
  unfold topic_page
  rw [hfind]
  simp [hacc]

/-- Claim C5: a nonexistent or inaccessible topic yields NotFound with the
store unchanged (view counter included); an accessible topic yields the
rendered page, bumps exactly that topic's view counter by 1 — for every
requesting user, authenticated or anonymous — leaves every other topic
unchanged, upserts the requesting user's read marker for that topic to the
current time, leaves every other read marker unchanged, and does not touch
the post table. -/
theorem topic_page_spec (P : Perms) (s : Store) (u : User) (pk tnow : Nat) :
    (getTopic s pk = none → topic_page P s u pk tnow = (.notFound, s)) ∧
    (∀ topic, getTopic s pk = some topic →
        P.topic_has_access pk u = false →
        topic_page P s u pk tnow = (.notFound, s)) ∧
    (∀ topic, getTopic s pk = some topic →
        P.topic_has_access pk u = true →
        (topic_page P s u pk tnow).1
            = .ok ⟨P.topic_can_post pk u, topic.forum_pk, pk⟩ ∧
        getTopic (topic_page P s u pk tnow).2 pk
            = some { topic with views := topic.views + 1 } ∧
        (∀ pk2, pk2 ≠ pk →
            getTopic (topic_page P s u pk tnow).2 pk2 = getTopic s pk2) ∧
        findMarker (topic_page P s u pk tnow).2 u.id pk = some tnow ∧
        (∀ upk2 tpk2, ¬(upk2 = u.id ∧ tpk2 = pk) →
            findMarker (topic_page P s u pk tnow).2 upk2 tpk2
              = findMarker s upk2 tpk2) ∧
        (topic_page P s u pk tnow).2.posts = s.posts) := by
  refine ⟨?_, ?_, ?_⟩
  · intro hnone
    unfold topic_page
    rw [hnone]
  · intro topic hfind hacc
    unfold topic_page
    rw [hfind]
    simp [hacc]
  · intro topic hfind hacc
    have hb : (topic_page P s u pk tnow).2
        = mark_visited_for
            (updateTopic s pk fun t => { t with views := t.views + 1 })
            u.id pk tnow := by
      rw [topic_page_success_eq P s u pk tnow topic hfind hacc]
    refine ⟨?_, ?_, ?_, ?_, ?_, ?_⟩
    · rw [topic_page_success_eq P s u pk tnow topic hfind hacc]
    · rw [hb, getTopic_mark_visited, getTopic_updateTopic_self s pk
        (fun t => { t with views := t.views + 1 }) (fun t ht => ht), hfind]
      rfl
    · intro pk2 hne
      rw [hb, getTopic_mark_visited]
      exact getTopic_updateTopic_ne s pk pk2
        (fun t => { t with views := t.views + 1 }) (fun t ht => ht) hne
    · rw [hb]
      exact findMarker_mark_visited_self _ u.id pk tnow
    · intro upk2 tpk2 hne
      rw [hb, findMarker_mark_visited_ne _ u.id pk tnow upk2 tpk2 hne]
      exact findMarker_updateTopic s pk _ upk2 tpk2
    · rw [hb]
      rfl

/-- Witness for C5 at a concrete input: an anonymous user (id 3) views the
sample topic; its view counter goes from 5 to 6 and the marker for (3, 1)
is set to the request time 42. -/
theorem topic_page_spec_witness :
    getTopic (topic_page permsAllTrue sampleStore ⟨3, false⟩ 1 42).2 1
        = some ⟨1, 2, 7, 6, false, false, false, false, [], 0⟩ ∧
    findMarker (topic_page permsAllTrue sampleStore ⟨3, false⟩ 1 42).2 3 1
        = some 42 :=
  ⟨((topic_page_spec permsAllTrue sampleStore ⟨3, false⟩ 1 42).2.2 sampleTopic
      rfl rfl).2.1,
   ((topic_page_spec permsAllTrue sampleStore ⟨3, false⟩ 1 42).2.2 sampleTopic
      rfl rfl).2.2.2.1⟩

/-- Claim C8: for an authenticated user, the delete-topic handler answers a
hard Forbidden with no store change when `can_delete` fails, whatever the
method; with permission, a non-POST request redirects to the owning forum
with the store untouched, and a POST request redirects likewise and removes
the topic. -/
theorem delete_topic_spec (P : Perms) (s : Store) (u : User) (pk : Nat)
    (topic : Topic) (hauth : u.is_authenticated = true)
    (hfind : getTopic s pk = some topic) :
    (P.topic_can_delete pk u = false →
        ∀ m, delete_topic P s u pk m = (.forbidden, s)) ∧
    (P.topic_can_delete pk u = true →
        (∀ m, m ≠ Method.POST →
            delete_topic P s u pk m = (.ok (.toForum topic.forum_pk), s)) ∧
        (delete_topic P s u pk Method.POST).1
            = .ok (.toForum topic.forum_pk) ∧
        getTopic (delete_topic P s u pk Method.POST).2 pk = none) := by
  refine ⟨?_, ?_⟩
  · intro hdel m
    unfold delete_topic
    rw [hfind]
    simp [hauth, hdel]
  · intro hdel
    have hpost : delete_topic P s u pk Method.POST
        = (.ok (.toForum topic.forum_pk), removeTopic s pk) := by
      unfold delete_topic
      rw [hfind]
      simp [hauth, hdel]
    refine ⟨?_, ?_, ?_⟩
    · intro m hm
      unfold delete_topic
      rw [hfind]
      simp [hauth, hdel, hm]
    · rw [hpost]
    · have hb : (delete_topic P s u pk Method.POST).2 = removeTopic s pk := by
        rw [hpost]
      rw [hb]
      exact getTopic_removeTopic_self s pk

/-- Witness for C8 at a concrete input: POST removes the sample topic, and a
GET with full permissions only redirects, leaving the store unchanged. -/
theorem delete_topic_spec_witness :
    getTopic (delete_topic permsAllTrue sampleStore ⟨7, true⟩ 1
        Method.POST).2 1 = none ∧
    delete_topic permsAllTrue sampleStore ⟨7, true⟩ 1 Method.GET
        = (Outcome.ok (Redirect.toForum 2), sampleStore) :=
  ⟨((delete_topic_spec permsAllTrue sampleStore ⟨7, true⟩ 1 sampleTopic
      rfl rfl).2 rfl).2.2,
   ((delete_topic_spec permsAllTrue sampleStore ⟨7, true⟩ 1 sampleTopic
      rfl rfl).2 rfl).1 Method.GET (by decide)⟩

/-- Claim C9 (code bug), evaluated at the failing input: user 7 with delete
permission deletes post 1, whose topic 5 does not exist in the store.  The
code deletes the post and then, in the fallback meant to redirect to the
forum, the lazy load of the deleted topic raises, so the outcome is a
server error, not the redirect-to-forum the claim describes; the companion
conjunct shows the intended behavior when the topic still exists. -/
theorem delete_post_missing_topic_error :
    delete_post permsAllTrue ⟨[], [⟨1, 5, 7, 10, [], 0⟩], [], [7]⟩ ⟨7, true⟩ 1
        = (Outcome.serverError, ⟨[], [], [], [7]⟩) ∧
    delete_post permsAllTrue sampleStore ⟨7, true⟩ 1
        = (Outcome.ok (Redirect.toTopic 1), ⟨[sampleTopic], [], [], [7]⟩) :=
  ⟨rfl, rfl⟩

/-- Inserting into the sorted post list never yields the empty list. -/
theorem insertByCreated_ne_nil (p : Post) (l : List Post) :
    insertByCreated p l ≠ [] := by
  cases l with
  | nil => simp [insertByCreated]
  | cons q l =>
    unfold insertByCreated
    by_cases h : p.created ≤ q.created <;> simp [h]

/-- Claim C7 (amended): with zero posts the statistics operation fails — the
first-post-timestamp query indexes an empty ordered collection and is not
guarded inside the view — while with at least one post the whole report is
produced; every aggregate other than the first-post query is total, so the
empty-collection failure comes only from that query. -/
theorem statistic_empty_behavior (s : Store) :
    (s.posts = [] → statistic s = .error ()) ∧
    (s.posts ≠ [] → ∃ r, statistic s = Except.ok r) := by
  constructor
  · intro h
    unfold statistic
    rw [h]
    rfl
  · intro h
    rcases hs : sortPostsByCreated s.posts with _ | ⟨p, l⟩
    · exfalso
      cases hp : s.posts with
      | nil => exact h hp
      | cons q l2 =>
        rw [hp] at hs
        exact insertByCreated_ne_nil q _ (by simpa [sortPostsByCreated] using hs)
    · exact ⟨_, by unfold statistic; rw [hs]⟩

/-- Counterexample to C7 as stated: on a store with zero posts the
statistics operation does not produce an empty report — it fails with the
unguarded first-post query error. -/
theorem statistic_empty_counterexample :
    statistic ⟨[], [], [], []⟩ = Except.error () ∧
    ((∃ r, statistic ⟨[], [], [], []⟩ = Except.ok r) → False) := by
  constructor
  · rfl
  · rintro ⟨r, hr⟩
    rw [show statistic ⟨[], [], [], []⟩ = Except.error () from rfl] at hr
    exact Except.noConfusion hr

/-- Witness for C7 (amended) at concrete inputs: the empty store errors and
the sample store (one post) produces a report. -/
theorem statistic_empty_behavior_witness :
    statistic ⟨[], [], [], []⟩ = Except.error () ∧
    ∃ r, statistic sampleStore = Except.ok r :=
  ⟨(statistic_empty_behavior ⟨[], [], [], []⟩).1 rfl,
   (statistic_empty_behavior sampleStore).2 (by decide)⟩

/-- Claim C6: the dedicated counting query and the unread listing apply the
same predicate, so for every access oracle, store and user the unread count
equals the number of topics the unread listing yields; consequently the
unread view hands the paginator a total equal to the length of its
queryset. -/
theorem unread_count_agrees (A : Nat → User → Bool) (s : Store) (u : User) :
    unread_count A s u = (unread A s u).length ∧
    (∀ items total, unread_view A s u = .ok (items, total) →
        total = items.length) := by
  have hc : unread_count A s u = (unread A s u).length := by
    unfold unread unread_count
    simp [List.countP_eq_length_filter]
  refine ⟨hc, ?_⟩
  intro items total hv
  unfold unread_view at hv
  cases hb : u.is_authenticated with
  | false => simp [hb] at hv
  | true =>
    simp [hb] at hv
    rw [← hv.1, ← hv.2]
    exact hc

/-- Witness for C6 at a concrete input: for an all-true access oracle on the
sample store (one topic, one post, no markers) the unread view lists the
sample topic with total 1. -/
theorem unread_count_agrees_witness :
    unread_count (fun _ _ => true) sampleStore ⟨7, true⟩
        = (unread (fun _ _ => true) sampleStore ⟨7, true⟩).length ∧
    (1 : Nat) = [sampleTopic].length :=
  ⟨(unread_count_agrees (fun _ _ => true) sampleStore ⟨7, true⟩).1,
   (unread_count_agrees (fun _ _ => true) sampleStore ⟨7, true⟩).2
      [sampleTopic] 1 rfl⟩

end DjForum
